import Mathlib

set_option maxHeartbeats 1000000

/- Shallow embedding of the INTERACTION ATLAS session coordinator.

   Primary source: the ws-based multi-room server (src/unnamed/part_002; the same
   code appears again at the tail of src/server.js).  The namespace ServerJs
   further embeds the set-semantics voting variant of src/server.js
   (handleVote / startVotingRound / removeParticipant, lines 455-962).

   Modeling conventions:
   - a connection is modeled by its readyState only (wsOpen : Bool, true iff
     ws.readyState === WebSocket.OPEN);
   - opaque generated string ids become Nat;
   - JavaScript numbers used as coordinates become Int, and the strict float
     comparison Math.sqrt(dx*dx + dy*dy) < r is modeled exactly as
     dx^2 + dy^2 < r^2 over the integers (equivalent over the reals for r >= 0);
   - the JS Map is modeled as an association list in insertion order; Map.set of
     a freshly generated key (timestamp + random) appends at the end;
   - a plain JS object used as a dictionary (room.votes) is likewise an
     association list, with absent keys reading as 0. -/

namespace Atlas

abbrev PId := Nat

/- Participant record stored in room.participants: participant object
   constructed in handleJoin (part_002 lines 189-193). -/
structure Participant where
  id : PId
  number : Nat
  wsOpen : Bool
  deriving DecidableEq, Repr

structure Point where
  x : Int
  y : Int
  deriving DecidableEq, Repr

/- Drawing pushed by the draw handler (part_002 lines 399-406). -/
structure Drawing where
  id : Nat
  number : Nat
  color : String
  width : Nat
  paths : List Point
  sectionId : Option Nat
  deriving DecidableEq, Repr

/- Text element pushed by the text handler (part_002 lines 425-434). -/
structure TextLabel where
  id : Nat
  number : Nat
  content : String
  x : Int
  y : Int
  color : String
  size : Nat
  sectionId : Option Nat
  deriving DecidableEq, Repr

/- Section member: { id, number } pushed by create_section; the accepted flag
   is absent at creation (JS undefined, falsy), modeled as accepted = false. -/
structure Member where
  id : PId
  number : Nat
  accepted : Bool
  deriving DecidableEq, Repr

structure Section where
  id : Nat
  members : List Member
  locked : Bool
  deriving DecidableEq, Repr

/- Room object (part_002 lines 38-49).  sessionPhase is the literal JS string,
   either "open" or "sections". -/
structure Room where
  participants : List Participant
  drawings : List Drawing
  texts : List TextLabel
  votes : List (PId × Nat)
  sections : List Section
  startTime : Nat
  votingRound : Nat
  sessionPhase : String
  deriving DecidableEq, Repr

def MAX_PARTICIPANTS : Nat := 20

/- Room constructor (part_002 lines 39-49). -/
def initRoom (startTime : Nat) : Room :=
  { participants := [], drawings := [], texts := [], votes := [], sections := []
  , startTime := startTime, votingRound := 0, sessionPhase := "open" }

/- Server -> client events that the handlers emit (ws.send / broadcastToRoom). -/
inductive Event where
  | voteUpdate (targetId : PId) (votes : Nat)
  | removedNotice (targetId : PId)
  | participantRemoved (targetId : PId) (number : Nat)
  | participantLeft (participantId : PId) (number : Nat)
  | votingStarted (round : Nat)
  | votingEnded
  | sectionsPhaseEvt (remainingNumbers : List Nat)
  | erasedEvt (number : Nat)
  | errorMsg (message : String)
  | sectionInvitationEvt (sectionId : Nat) (inviteeId : PId) (inviterNumber : Nat)
  | sectionCreatedEvt (sectionId : Nat)
  | sectionJoinedEvt (sectionId : Nat) (memberId : PId)
  | drawingEvt (drawing : Option Drawing)
  deriving DecidableEq, Repr

/- Room.getActiveCount (part_002 lines 52-60). -/
def Room.getActiveCount (r : Room) : Nat :=
  r.participants.countP (fun p => p.wsOpen)

/- Room.cleanupAndCount, state part (part_002 lines 63-72): delete every
   participant whose connection is not open. -/
def Room.cleanup (r : Room) : Room :=
  { r with participants := r.participants.filter (fun p => p.wsOpen) }

/- usedNumbers set built inside Room.getAvailableNumber (part_002 lines 76-81). -/
def Room.usedNumbers (r : Room) : List Nat :=
  (r.participants.filter (fun p => p.wsOpen)).map (fun p => p.number)

/- Room.getAvailableNumber (part_002 lines 74-89): first i in 1..20 not held by
   an active participant, null if the room is full. -/
def Room.getAvailableNumber (r : Room) : Option Nat :=
  (List.range' 1 MAX_PARTICIPANTS).find? (fun i => !(r.usedNumbers.contains i))

/- Room.getActiveParticipantsList (part_002 lines 92-103), numbers only. -/
def Room.activeNumbers (r : Room) : List Nat :=
  r.usedNumbers

inductive JoinResult where
  | joined (participantId : PId) (number : Nat)
  | rejected
  deriving DecidableEq, Repr

/- room.participants.set(participantId, { id, number, ws }) for a freshly
   generated key (part_002 lines 189-193): a JS Map appends new keys. -/
def joinAdd (r : Room) (freshId : PId) (participantNumber : Nat) : Room :=
  { r with participants :=
      r.participants ++ [{ id := freshId, number := participantNumber, wsOpen := true }] }

/- room.participants.delete(participantId) (part_002 line 199). -/
def deleteParticipant (r : Room) (pid : PId) : Room :=
  { r with participants := r.participants.filter (fun p => p.id != pid) }

/- handleJoin (part_002 lines 135-241), run under the per-room join lock, so it
   is a single atomic state transition.  freshId models the generated
   participant id (timestamp + random), assumed fresh. -/
def handleJoin (r : Room) (freshId : PId) : Room × JoinResult :=
  if MAX_PARTICIPANTS ≤ r.cleanup.getActiveCount then
    (r.cleanup, .rejected)
  else
    match r.cleanup.getAvailableNumber with
    | none => (r.cleanup, .rejected)
    | some participantNumber =>
      -- double-check we're still under limit (lines 171-183)
      if MAX_PARTICIPANTS ≤ r.cleanup.getActiveCount then
        (r.cleanup, .rejected)
      else
        -- final safety check (lines 195-208)
        if MAX_PARTICIPANTS < (joinAdd r.cleanup freshId participantNumber).getActiveCount then
          (deleteParticipant (joinAdd r.cleanup freshId participantNumber) freshId, .rejected)
        else
          (joinAdd r.cleanup freshId participantNumber, .joined freshId participantNumber)

/- Section membership stripping done by removeParticipant and the close handler
   (part_002 lines 284-289 and 648-653): every section loses the member, and a
   section whose membership becomes empty is deleted. -/
def stripFromSections (sections : List Section) (pid : PId) : List Section :=
  (sections.map (fun s => { s with members := s.members.filter (fun m => m.id != pid) })).filter
    (fun s => !s.members.isEmpty)

/- removeParticipant (part_002 lines 261-296): removal notice + close, record
   and vote-tally entry deleted, section membership stripped, departure
   broadcast. -/
def removeParticipant (r : Room) (pid : PId) : Room × List Event :=
  match r.participants.find? (fun p => p.id == pid) with
  | none => (r, [])
  | some participant =>
    let notice := if participant.wsOpen then [Event.removedNotice pid] else []
    ({ r with
        participants := r.participants.filter (fun p => p.id != pid)
      , votes := r.votes.filter (fun e => e.1 != pid)
      , sections := stripFromSections r.sections pid },
     notice ++ [Event.participantRemoved pid participant.number])

/- ws close handler (part_002 lines 640-672): participant record deleted,
   sections stripped, departure broadcast (the vote tally is not touched). -/
def handleClose (r : Room) (pid : PId) : Room × List Event :=
  match r.participants.find? (fun p => p.id == pid) with
  | none => (r, [])
  | some participant =>
    ({ r with
        participants := r.participants.filter (fun p => p.id != pid)
      , sections := stripFromSections r.sections pid },
     [Event.participantLeft pid participant.number])

/- Invariant of C1: active numbers lie in 1..20, are pairwise distinct, and at
   most 20 participants are active. -/
def RoomInv (r : Room) : Prop :=
  (∀ p ∈ r.participants, p.wsOpen = true → 1 ≤ p.number ∧ p.number ≤ MAX_PARTICIPANTS)
  ∧ r.usedNumbers.Nodup
  ∧ r.getActiveCount ≤ MAX_PARTICIPANTS

instance : DecidablePred RoomInv := fun r => by
  unfold RoomInv
  infer_instance

theorem cleanup_usedNumbers (r : Room) : r.cleanup.usedNumbers = r.usedNumbers := by
  simp [Room.cleanup, Room.usedNumbers, List.filter_filter]

theorem cleanup_activeCount (r : Room) : r.cleanup.getActiveCount = r.getActiveCount := by
  simp [Room.cleanup, Room.getActiveCount, List.countP_filter]

theorem cleanup_availableNumber (r : Room) :
    r.cleanup.getAvailableNumber = r.getAvailableNumber := by
  simp [Room.getAvailableNumber, cleanup_usedNumbers]

theorem cleanup_inv {r : Room} (h : RoomInv r) : RoomInv r.cleanup := by
  obtain ⟨h1, h2, h3⟩ := h
  refine ⟨?_, ?_, ?_⟩
  · intro p hp
    exact h1 p (List.mem_of_mem_filter hp)
  · rw [cleanup_usedNumbers]; exact h2
  · rw [cleanup_activeCount]; exact h3

theorem filter_sublist_inv {r : Room} (h : RoomInv r) (q : Participant → Bool) :
    RoomInv { r with participants := r.participants.filter q } := by
  obtain ⟨h1, h2, h3⟩ := h
  have hsub : List.Sublist (r.participants.filter q) r.participants := List.filter_sublist _
  refine ⟨?_, ?_, ?_⟩
  · intro p hp
    exact h1 p (hsub.mem hp)
  · have : List.Sublist
        (((r.participants.filter q).filter (fun p => p.wsOpen)).map (fun p => p.number))
        ((r.participants.filter (fun p => p.wsOpen)).map (fun p => p.number)) :=
      (hsub.filter _).map _
    exact h2.sublist this
  · exact le_trans (hsub.countP_le _) h3

theorem avail_some_bounds {r : Room} {n : Nat} (h : r.getAvailableNumber = some n) :
    1 ≤ n ∧ n ≤ MAX_PARTICIPANTS ∧ n ∉ r.usedNumbers := by
  unfold Room.getAvailableNumber at h
  have hmem := List.mem_of_find?_eq_some h
  have hpred := List.find?_some h
  simp only [Bool.not_eq_true'] at hpred
  have hnotmem : n ∉ r.usedNumbers := by
    simpa using hpred
  rw [List.mem_range'_1] at hmem
  refine ⟨hmem.1, ?_, hnotmem⟩
  have h2' := hmem.2
  unfold MAX_PARTICIPANTS at h2' ⊢
  omega

theorem joinAdd_usedNumbers (r : Room) (freshId : PId) (n : Nat) :
    (joinAdd r freshId n).usedNumbers = r.usedNumbers ++ [n] := by
  simp [joinAdd, Room.usedNumbers]

theorem joinAdd_activeCount (r : Room) (freshId : PId) (n : Nat) :
    (joinAdd r freshId n).getActiveCount = r.getActiveCount + 1 := by
  simp [joinAdd, Room.getActiveCount]

theorem joinAdd_inv {r : Room} (h : RoomInv r) {n : Nat} (freshId : PId)
    (hn : r.getAvailableNumber = some n)
    (hlt : r.getActiveCount < MAX_PARTICIPANTS) : RoomInv (joinAdd r freshId n) := by
  obtain ⟨h1, h2, h3⟩ := h
  have hb := avail_some_bounds hn
  refine ⟨?_, ?_, ?_⟩
  · intro p hp
    rcases List.mem_append.mp hp with hp | hp
    · exact h1 p hp
    · simp only [List.mem_singleton] at hp
      subst hp
      intro _
      exact ⟨hb.1, hb.2.1⟩
  · rw [joinAdd_usedNumbers]
    simp [List.nodup_append, h2, hb.2.2]
  · rw [joinAdd_activeCount]
    omega

/-- C1: for every room, the set of active participant numbers always stays a
subset of 1..20 with no duplicates; the join, removal and disconnect handlers
preserve this invariant, and a join attempt against a room that already has 20
active participants is rejected and changes nothing beyond the dead-connection
sweep, so a 21st concurrent join attempt is never admitted (joins are
serialized per room by withJoinLock). -/
theorem join_capacity_invariant :
    (∀ (r : Room) (freshId : PId), RoomInv r → RoomInv (handleJoin r freshId).1)
    ∧ (∀ (r : Room) (freshId : PId), RoomInv r →
        MAX_PARTICIPANTS ≤ r.getActiveCount →
        (handleJoin r freshId).2 = JoinResult.rejected ∧
        (handleJoin r freshId).1 = r.cleanup)
    ∧ (∀ (r : Room) (pid : PId), RoomInv r → RoomInv (removeParticipant r pid).1)
    ∧ (∀ (r : Room) (pid : PId), RoomInv r → RoomInv (handleClose r pid).1) := by
  refine ⟨?_, ?_, ?_, ?_⟩
  · intro r freshId h
    have hc := cleanup_inv h
    unfold handleJoin
    split
    · exact hc
    · rename_i hnotfull
      split
      · exact hc
      · rename_i participantNumber hfind
        have hlt' : r.cleanup.getActiveCount < MAX_PARTICIPANTS := by omega
        have hinv2 := joinAdd_inv hc freshId hfind hlt'
        split
        · unfold deleteParticipant
          exact filter_sublist_inv hinv2 _
        · exact hinv2
  · intro r freshId h hfull
    unfold handleJoin
    rw [if_pos (by rw [cleanup_activeCount]; exact hfull)]
    exact ⟨rfl, rfl⟩
  · intro r pid h
    unfold removeParticipant
    split
    · exact h
    · exact filter_sublist_inv h _
  · intro r pid h
    unfold handleClose
    split
    · exact h
    · exact filter_sublist_inv h _

/- A concrete room holding 20 active participants numbered 1..20. -/
def fullRoom : Room :=
  { participants := (List.range MAX_PARTICIPANTS).map (fun i => ⟨i + 1, i + 1, true⟩)
  , drawings := [], texts := [], votes := [], sections := []
  , startTime := 0, votingRound := 0, sessionPhase := "open" }

/-- Witness for C1: the invariant holds of a concrete full room, and a 21st
join attempt against it is rejected without admitting anyone. -/
theorem join_capacity_invariant_witness :
    RoomInv fullRoom ∧ MAX_PARTICIPANTS ≤ fullRoom.getActiveCount ∧
    (handleJoin fullRoom 99).2 = JoinResult.rejected ∧
    (handleJoin fullRoom 99).1 = fullRoom.cleanup :=
  ⟨by decide, by decide,
    (join_capacity_invariant.2.1 fullRoom 99 (by decide) (by decide)).1,
    (join_capacity_invariant.2.1 fullRoom 99 (by decide) (by decide)).2⟩

/- room.votes is a plain JS object used as a dictionary participantId -> count;
   an absent key reads as undefined (falsy), i.e. 0.  Keys are unique, lookups
   and updates address the (unique) matching key. -/
def votesLookup : List (PId × Nat) → PId → Nat
  | [], _ => 0
  | e :: rest, t => if e.1 = t then e.2 else votesLookup rest t

/- if (!room.votes[t]) room.votes[t] = 0; room.votes[t]++
   (part_002 lines 497-500): create-or-increment of a dictionary entry. -/
def votesBump : List (PId × Nat) → PId → List (PId × Nat)
  | [], t => [(t, 1)]
  | e :: rest, t => if e.1 = t then (e.1, e.2 + 1) :: rest else e :: votesBump rest t

theorem votesLookup_bump (v : List (PId × Nat)) (t : PId) :
    votesLookup (votesBump v t) t = votesLookup v t + 1 := by
  induction v with
  | nil => simp [votesBump, votesLookup]
  | cons e rest ih =>
    by_cases h : e.1 = t
    · simp [votesBump, votesLookup, h]
    · simp [votesBump, votesLookup, h, ih]

theorem votesLookup_erase (v : List (PId × Nat)) (t : PId) :
    votesLookup (v.filter (fun e => e.1 != t)) t = 0 := by
  induction v with
  | nil => simp [votesLookup]
  | cons e rest ih =>
    by_cases h : e.1 = t
    · simp [List.filter_cons, h, ih]
    · simp [List.filter_cons, h, votesLookup, ih]

/- vote_remove handler (part_002 lines 493-513).  voterId is the sender's
   participantId: the handler only requires the sender to have completed a
   join and never otherwise reads it; targetId is taken from the message.
   The vote_update broadcast precedes the removal events, as in the source. -/
def voteRemove (r : Room) (voterId : PId) (targetId : PId) : Room × List Event :=
  if 0 < r.votingRound then
    let votes' := votesBump r.votes targetId
    let count := votesLookup votes' targetId
    if 4 ≤ count then
      let res := removeParticipant { r with votes := votes' } targetId
      (res.1, Event.voteUpdate targetId count :: res.2)
    else
      ({ r with votes := votes' }, [Event.voteUpdate targetId count])
  else (r, [])

theorem stripFromSections_not_mem (sections : List Section) (pid : PId) :
    ∀ s ∈ stripFromSections sections pid, ∀ m ∈ s.members, m.id ≠ pid := by
  intro s hs m hm
  unfold stripFromSections at hs
  have hs' := List.mem_of_mem_filter hs
  obtain ⟨s₀, _, rfl⟩ := List.mem_map.mp hs'
  simp only [List.mem_filter, bne_iff_ne, ne_eq] at hm
  exact hm.2

/-- C3: the moment a cast vote brings a target's tally to 4 during a voting
round, the target is removed within that same handler step, not at round end:
the emitted events are exactly the vote_update at count 4, the removal notice
on the target's open connection, and the participant_removed broadcast; the
target's record is gone, its number is no longer among the active numbers (so
getAvailableNumber can hand it to a new joiner at once), it is stripped from
every section membership, its tally entry is deleted, and the round is still
running.  With four distinct voters each casting one vote, the tally equals
the distinct-voter count, which is the scenario of the claim. -/
theorem vote_threshold_removes_immediately :
    ∀ (r : Room) (voterId targetId : PId) (p : Participant),
    RoomInv r →
    0 < r.votingRound →
    r.participants.find? (fun q => q.id == targetId) = some p →
    p.wsOpen = true →
    votesLookup r.votes targetId = 3 →
    ((voteRemove r voterId targetId).2
        = [Event.voteUpdate targetId 4, Event.removedNotice targetId,
           Event.participantRemoved targetId p.number])
    ∧ (∀ q ∈ (voteRemove r voterId targetId).1.participants, q.id ≠ targetId)
    ∧ p.number ∉ (voteRemove r voterId targetId).1.usedNumbers
    ∧ (∀ s ∈ (voteRemove r voterId targetId).1.sections, ∀ m ∈ s.members, m.id ≠ targetId)
    ∧ votesLookup (voteRemove r voterId targetId).1.votes targetId = 0
    ∧ (voteRemove r voterId targetId).1.votingRound = r.votingRound := by
  intro r voterId targetId p hinv hround hfind hopen hvotes
  have hpmem : p ∈ r.participants := List.mem_of_find?_eq_some hfind
  have hpid : p.id = targetId := by
    have := List.find?_some hfind
    simpa using this
  have hcount : votesLookup (votesBump r.votes targetId) targetId = 4 := by
    rw [votesLookup_bump, hvotes]
  have hres : voteRemove r voterId targetId =
      (({ r with
            participants := r.participants.filter (fun q => q.id != targetId)
          , votes := (votesBump r.votes targetId).filter (fun e => e.1 != targetId)
          , sections := stripFromSections r.sections targetId } : Room),
        [Event.voteUpdate targetId 4, Event.removedNotice targetId,
         Event.participantRemoved targetId p.number]) := by
    unfold voteRemove
    rw [if_pos hround]
    simp only [hcount]
    rw [if_pos (by norm_num)]
    unfold removeParticipant
    simp only [show ({ r with votes := votesBump r.votes targetId } : Room).participants
        = r.participants from rfl, hfind, hopen]
    simp
  rw [hres]
  refine ⟨rfl, ?_, ?_, ?_, ?_, rfl⟩
  · intro q hq
    simp only [List.mem_filter, bne_iff_ne, ne_eq] at hq
    exact hq.2
  · intro hmem
    unfold Room.usedNumbers at hmem
    simp only [List.mem_map] at hmem
    obtain ⟨q, hq, hqnum⟩ := hmem
    simp only [List.mem_filter] at hq
    obtain ⟨⟨hqmem, hqne⟩, hqopen⟩ := hq
    have hnodup : ((r.participants.filter (fun p => p.wsOpen)).map (fun p => p.number)).Nodup :=
      hinv.2.1
    have hinj := List.inj_on_of_nodup_map hnodup
    have hqmem' : q ∈ r.participants.filter (fun p => p.wsOpen) :=
      List.mem_filter.mpr ⟨hqmem, hqopen⟩
    have hpmem' : p ∈ r.participants.filter (fun p => p.wsOpen) :=
      List.mem_filter.mpr ⟨hpmem, by simp [hopen]⟩
    have : q = p := hinj hqmem' hpmem' hqnum
    subst this
    simp [hpid] at hqne
  · exact stripFromSections_not_mem _ _
  · exact votesLookup_erase _ _

/- A concrete room in round 1 with active participants 1,2,3,4 and 7, where
   three distinct voters have already voted against participant 7. -/
def voteRoom : Room :=
  { participants := [⟨1, 1, true⟩, ⟨2, 2, true⟩, ⟨3, 3, true⟩, ⟨4, 4, true⟩, ⟨7, 7, true⟩]
  , drawings := [], texts := []
  , votes := [(7, 3)]
  , sections := [{ id := 9, members := [⟨7, 7, false⟩, ⟨1, 1, false⟩], locked := false }]
  , startTime := 0, votingRound := 1, sessionPhase := "open" }

/-- Witness for C3: in the concrete scenario, the fourth vote against
participant 7 removes them at once, emits the removal notice plus the
departure broadcast, and frees number 7. -/
theorem vote_threshold_removes_immediately_witness :
    (voteRemove voteRoom 4 7).2
      = [Event.voteUpdate 7 4, Event.removedNotice 7, Event.participantRemoved 7 7]
    ∧ (7 : Nat) ∉ (voteRemove voteRoom 4 7).1.usedNumbers
    ∧ (∀ s ∈ (voteRemove voteRoom 4 7).1.sections, ∀ m ∈ s.members, m.id ≠ 7) :=
  ⟨(vote_threshold_removes_immediately voteRoom 4 7 ⟨7, 7, true⟩
      (by decide) (by decide) (by decide) (by decide) (by decide)).1,
   (vote_threshold_removes_immediately voteRoom 4 7 ⟨7, 7, true⟩
      (by decide) (by decide) (by decide) (by decide) (by decide)).2.2.1,
   (vote_threshold_removes_immediately voteRoom 4 7 ⟨7, 7, true⟩
      (by decide) (by decide) (by decide) (by decide) (by decide)).2.2.2.1⟩

/- A one-participant room in round 1 with an empty tally. -/
def selfVoteRoom : Room :=
  { participants := [⟨1, 1, true⟩]
  , drawings := [], texts := [], votes := [], sections := []
  , startTime := 0, votingRound := 1, sessionPhase := "open" }

/-- Counterexample for C7: the vote_remove handler has none of the claimed
guards.  A self-vote (voter 1 targets themself) increments the tally and
broadcasts a vote_update instead of being a no-op, and a vote for id 42, which
is not a participant at all (e.g. already departed), likewise mutates the
tally and broadcasts. -/
theorem vote_no_guard_counterexample :
    (voteRemove selfVoteRoom 1 1).1.votes = [(1, 1)]
    ∧ (voteRemove selfVoteRoom 1 1).2 = [Event.voteUpdate 1 1]
    ∧ (voteRemove selfVoteRoom 1 1).1 ≠ selfVoteRoom
    ∧ (voteRemove selfVoteRoom 1 42).1.votes = [(42, 1)]
    ∧ (voteRemove selfVoteRoom 1 42).2 = [Event.voteUpdate 42 1] := by
  refine ⟨by decide, by decide, by decide, by decide, by decide⟩

/-- C7 amended: the vote_remove handler ignores the voter's and the target's
identity entirely.  Whenever a voting round is active it increments the
tally for the supplied targetId and broadcasts the new count, even when the
voter equals the target and even when the target is not an active
participant; it is a no-op only when no voting round is active. -/
theorem vote_remove_characterization :
    ∀ (r : Room) (voterId targetId : PId),
    (r.votingRound = 0 → voteRemove r voterId targetId = (r, []))
    ∧ (0 < r.votingRound →
        (voteRemove r voterId targetId).2.head? =
          some (Event.voteUpdate targetId (votesLookup r.votes targetId + 1))) := by
  intro r voterId targetId
  constructor
  · intro h0
    unfold voteRemove
    rw [if_neg (by omega)]
  · intro hround
    unfold voteRemove
    rw [if_pos hround]
    simp only [votesLookup_bump]
    split
    · simp
    · simp

/-- Witness for the amended C7: with no round active the handler is a no-op;
during round 1, a self-vote broadcasts the incremented count 1. -/
theorem vote_remove_characterization_witness :
    voteRemove (initRoom 0) 1 1 = (initRoom 0, [])
    ∧ (voteRemove selfVoteRoom 1 1).2.head? = some (Event.voteUpdate 1 1) :=
  ⟨(vote_remove_characterization (initRoom 0) 1 1).1 (by decide),
   by
    have h := (vote_remove_characterization selfVoteRoom 1 1).2 (by decide)
    simpa using h⟩

/- canInteract (part_002 lines 299-306): unrestricted while the phase is open,
   otherwise only members of a locked section may interact. -/
def canInteract (r : Room) (pid : PId) : Bool :=
  if r.sessionPhase = "open" then true
  else r.sections.any (fun s => s.locked && s.members.any (fun m => m.id == pid))

/- getParticipantSection (part_002 lines 309-315). -/
def getParticipantSection (r : Room) (pid : PId) : Option Nat :=
  if r.sessionPhase = "open" then none
  else (r.sections.find? (fun s => s.locked && s.members.any (fun m => m.id == pid))).map
    (fun s => s.id)

/- Math.pow(ax - bx, 2) + Math.pow(ay - by, 2); the source compares
   Math.sqrt of this against the radius, which for a nonnegative radius is
   exactly the comparison of this square against radius^2. -/
def distSq (px py x y : Int) : Int :=
  (px - x) ^ 2 + (py - y) ^ 2

/- dist < eraseRadius for a text element (part_002 lines 462-465, strict). -/
def labelHit (t : TextLabel) (x y : Int) (radius : Nat) : Bool :=
  decide (distSq t.x t.y x y < (radius : Int) ^ 2)

/- draw.paths.some(path => dist < eraseRadius) (part_002 lines 455-458):
   a stroke is hit when any of its points is strictly within the radius. -/
def strokeHit (d : Drawing) (x y : Int) (radius : Nat) : Bool :=
  d.paths.any (fun p => decide (distSq p.x p.y x y < (radius : Int) ^ 2))

/- erase handler (part_002 lines 444-491).  requesterNumber is the sender's
   participantNumber from the connection closure; data.radius || 30 is the
   JS falsy default, modeled by treating radius 0 as 30. -/
def eraseHandler (r : Room) (requesterId : PId) (requesterNumber : Nat)
    (x y : Int) (radius : Nat) : Room × List Event :=
  if canInteract r requesterId then
    let eraseRadius := if radius = 0 then 30 else radius
    let sectionId := getParticipantSection r requesterId
    if r.sessionPhase = "open" then
      ({ r with
          drawings := r.drawings.filter (fun d => !(strokeHit d x y eraseRadius))
        , texts := r.texts.filter (fun t => !(labelHit t x y eraseRadius)) },
       [Event.erasedEvt requesterNumber])
    else
      ({ r with
          drawings := r.drawings.filter
            (fun d => if d.sectionId ≠ sectionId then true else !(strokeHit d x y eraseRadius))
        , texts := r.texts.filter
            (fun t => if t.sectionId ≠ sectionId then true else !(labelHit t x y eraseRadius)) },
       [Event.erasedEvt requesterNumber])
  else (r, [])

/- A sections-phase room: requester 1 sits in locked section 5; a text label
   with a null sectionId (created before locking) sits right under the
   eraser. -/
def sectionsRoom : Room :=
  { participants := [⟨1, 1, true⟩, ⟨2, 2, true⟩]
  , drawings := []
  , texts := [{ id := 50, number := 2, content := "pre-lock", x := 0, y := 0
              , color := "#e0e0e0", size := 20, sectionId := none }]
  , votes := []
  , sections := [{ id := 5, members := [⟨1, 1, true⟩], locked := true }]
  , startTime := 0, votingRound := 0, sessionPhase := "sections" }

/-- Counterexample for C4: in the Sections phase, an element with a null
sectionId is NOT erasable.  Requester 1 (member of locked section 5) erases at
the exact position of a null-section label within the radius; the claim says
such elements remain globally erasable, but the handler keeps the label
because its sectionId (null) differs from the requester's section id (5). -/
theorem erase_null_section_counterexample :
    labelHit { id := 50, number := 2, content := "pre-lock", x := 0, y := 0
             , color := "#e0e0e0", size := 20, sectionId := none } 0 0 30 = true
    ∧ getParticipantSection sectionsRoom 1 = some 5
    ∧ (eraseHandler sectionsRoom 1 1 0 0 30).1.texts = sectionsRoom.texts := by
  refine ⟨by decide, by decide, by decide⟩

/-- C4 amended: erase removes exactly the elements that are both geometrically
hit with strict inequality (a label iff its squared distance from the center
is strictly below the squared radius; a stroke iff some point of it is, whole
stroke at once; distance exactly equal to the radius preserves the element)
and in scope for the phase: outside the Sections phase every element is in
scope, while inside Sections only elements whose sectionId equals the
requester's own section id are in scope — elements with a null sectionId are,
exactly like elements of a different section, untouched regardless of
geometric overlap. -/
theorem erase_characterization :
    ∀ (r : Room) (requesterId : PId) (requesterNumber : Nat) (x y : Int) (radius : Nat),
    canInteract r requesterId = true →
    radius ≠ 0 →
    (∀ t : TextLabel,
      t ∈ (eraseHandler r requesterId requesterNumber x y radius).1.texts ↔
        t ∈ r.texts ∧ ¬(labelHit t x y radius = true ∧
          (r.sessionPhase = "open" ∨ t.sectionId = getParticipantSection r requesterId)))
    ∧ (∀ d : Drawing,
      d ∈ (eraseHandler r requesterId requesterNumber x y radius).1.drawings ↔
        d ∈ r.drawings ∧ ¬(strokeHit d x y radius = true ∧
          (r.sessionPhase = "open" ∨ d.sectionId = getParticipantSection r requesterId))) := by
  intro r requesterId requesterNumber x y radius hcan hr
  unfold eraseHandler
  rw [if_pos hcan]
  simp only [if_neg hr]
  by_cases hphase : r.sessionPhase = "open"
  · rw [if_pos hphase]
    constructor
    · intro t
      simp [List.mem_filter, hphase]
    · intro d
      simp [List.mem_filter, hphase]
  · rw [if_neg hphase]
    constructor
    · intro t
      simp only [List.mem_filter, hphase, false_or]
      by_cases hsec : t.sectionId = getParticipantSection r requesterId
      · simp [hsec]
      · simp [hsec]
    · intro d
      simp only [List.mem_filter, hphase, false_or]
      by_cases hsec : d.sectionId = getParticipantSection r requesterId
      · simp [hsec]
      · simp [hsec]

/- An open-phase room realizing the spec scenario: erase at (100,100) with
   radius 20; one stroke has a point at (110,105), another sits at
   (200,200); one label sits at squared distance exactly radius^2. -/
def eraseOpenRoom : Room :=
  { participants := [⟨1, 5, true⟩]
  , drawings :=
      [ { id := 60, number := 5, color := "#4a9eff", width := 3
        , paths := [⟨110, 105⟩], sectionId := none }
      , { id := 61, number := 5, color := "#4a9eff", width := 3
        , paths := [⟨200, 200⟩], sectionId := none } ]
  , texts := [{ id := 62, number := 5, content := "edge", x := 120, y := 100
              , color := "#e0e0e0", size := 20, sectionId := none }]
  , votes := [], sections := []
  , startTime := 0, votingRound := 0, sessionPhase := "open" }

/-- Witness for the amended C4: in the open-phase scenario the stroke with a
point at distance about 11.2 from the center is removed, the far stroke is
retained, and the label at distance exactly 20 (the radius) is preserved by
strictness. -/
theorem erase_characterization_witness :
    canInteract eraseOpenRoom 1 = true
    ∧ ((eraseHandler eraseOpenRoom 1 5 100 100 20).1.drawings.map (fun d => d.id) = [61])
    ∧ ((eraseHandler eraseOpenRoom 1 5 100 100 20).1.texts.map (fun t => t.id) = [62])
    ∧ ({ id := 62, number := 5, content := "edge", x := 120, y := 100
       , color := "#e0e0e0", size := 20, sectionId := none } ∈
        (eraseHandler eraseOpenRoom 1 5 100 100 20).1.texts ↔
       ({ id := 62, number := 5, content := "edge", x := 120, y := 100
        , color := "#e0e0e0", size := 20, sectionId := none } ∈ eraseOpenRoom.texts ∧
        ¬(labelHit { id := 62, number := 5, content := "edge", x := 120, y := 100
                   , color := "#e0e0e0", size := 20, sectionId := none } 100 100 20 = true ∧
          (eraseOpenRoom.sessionPhase = "open" ∨
            ({ id := 62, number := 5, content := "edge", x := 120, y := 100
             , color := "#e0e0e0", size := 20, sectionId := none } : TextLabel).sectionId =
              getParticipantSection eraseOpenRoom 1)))) :=
  ⟨by decide, by decide, by decide,
   (erase_characterization eraseOpenRoom 1 5 100 100 20 (by decide) (by decide)).1 _⟩

/- create_section handler (part_002 lines 552-605).  The inviter is pushed
   first as plain { id, number }: the JS object has no accepted property at
   all (undefined, falsy), modeled as accepted = false; each invitee that
   resolves to a currently open participant is appended the same way.
   newSectionId models the generated section id. -/
/- room.participants.get(id) followed by the readyState check inside the
   create_section invitee loop (part_002 lines 570-575). -/
def resolveInvitee (r : Room) (i : PId) : Option Member :=
  (r.participants.find? (fun p => p.id == i)).bind (fun p =>
    if p.wsOpen then some { id := i, number := p.number, accepted := false }
    else none)

def createSection (r : Room) (inviterId : PId) (inviteeIds : List PId)
    (newSectionId : Nat) : Room × List Event :=
  match r.participants.find? (fun p => p.id == inviterId) with
  | none => (r, [])
  | some inviter =>
    if 3 < inviteeIds.length + 1 then
      (r, [Event.errorMsg "Section cannot exceed 3 participants"])
    else
      let members : List Member :=
        { id := inviterId, number := inviter.number, accepted := false } ::
          inviteeIds.filterMap (resolveInvitee r)
      let s : Section := { id := newSectionId, members := members, locked := false }
      ({ r with sections := r.sections ++ [s] },
       (members.filterMap (fun m =>
          if m.id ≠ inviterId then
            some (Event.sectionInvitationEvt newSectionId m.id inviter.number)
          else none))
         ++ [Event.sectionCreatedEvt newSectionId])

/- section.members.find(m => m.id === participantId).accepted = true: the JS
   mutates the first matching member object in place. -/
def acceptFirst : List Member → PId → List Member
  | [], _ => []
  | m :: rest, pid =>
    if m.id = pid then { m with accepted := true } :: rest
    else m :: acceptFirst rest pid

/- In-place mutation of the section object found by id inside room.sections. -/
def updateFirstSection : List Section → Nat → Section → List Section
  | [], _, _ => []
  | s :: rest, sid, s' =>
    if s.id = sid then s' :: rest else s :: updateFirstSection rest sid s'

/- accept_section_invitation handler (part_002 lines 607-633): mark the member
   accepted (no-op when already accepted); when every member has accepted,
   set locked = true and notify each connected member. -/
def acceptSectionInvitation (r : Room) (pid : PId) (sectionId : Nat) : Room × List Event :=
  match r.sections.find? (fun s => s.id == sectionId) with
  | none => (r, [])
  | some s =>
    match s.members.find? (fun m => m.id == pid) with
    | none => (r, [])
    | some member =>
      if member.accepted then (r, [])
      else
        let members' := acceptFirst s.members pid
        let s' : Section :=
          { id := s.id, members := members'
          , locked := if members'.all (fun m => m.accepted) then true else s.locked }
        ({ r with sections := updateFirstSection r.sections sectionId s' },
         if members'.all (fun m => m.accepted) then
           members'.filterMap (fun m =>
             (r.participants.find? (fun p => p.id == m.id)).bind (fun p =>
               if p.wsOpen then some (Event.sectionJoinedEvt s.id m.id) else none))
         else [])

theorem acceptFirst_length (l : List Member) (pid : PId) :
    (acceptFirst l pid).length = l.length := by
  induction l with
  | nil => rfl
  | cons m rest ih =>
    by_cases h : m.id = pid
    · simp [acceptFirst, h]
    · simp [acceptFirst, h, ih]

/- A room with a lone participant 1 who creates a section with no invitees. -/
def inviterOnlyRoom : Room :=
  { participants := [⟨1, 1, true⟩]
  , drawings := [], texts := [], votes := [], sections := []
  , startTime := 0, votingRound := 0, sessionPhase := "open" }

/-- Counterexample for C5: the inviter is NOT pre-accepted at creation.  When
participant 1 creates a section with zero invitees, the created section lists
the inviter with accepted = false (the JS member object has no accepted
property) and stays unlocked; under the claim, the inviter would be
pre-accepted, so this one-member section would have every member accepted and
hence be locked. -/
theorem section_inviter_not_preaccepted_counterexample :
    (createSection inviterOnlyRoom 1 [] 100).1.sections =
      [{ id := 100, members := [{ id := 1, number := 1, accepted := false }], locked := false }] := by
  decide

/-- C5 amended: every section has at most 3 members at all times (creation
with more than 2 invitees is rejected with an explicit error and no state
change, and the create, accept, removal and disconnect operations all
preserve the cap); at creation every member, including the inviter, is listed
as not yet accepted and the section is unlocked; and when an acceptance is
processed on an unlocked section, the section ends up locked exactly when it
leaves every member accepted. -/
theorem section_rules :
    (∀ (r : Room) (inviterId : PId) (inviteeIds : List PId) (sid : Nat),
      (∀ s ∈ r.sections, s.members.length ≤ 3) →
      ∀ s ∈ (createSection r inviterId inviteeIds sid).1.sections, s.members.length ≤ 3)
    ∧ (∀ (r : Room) (inviterId : PId) (inviteeIds : List PId) (sid : Nat) (p : Participant),
      r.participants.find? (fun q => q.id == inviterId) = some p →
      2 < inviteeIds.length →
      createSection r inviterId inviteeIds sid =
        (r, [Event.errorMsg "Section cannot exceed 3 participants"]))
    ∧ (∀ (r : Room) (inviterId : PId) (inviteeIds : List PId) (sid : Nat) (p : Participant),
      r.participants.find? (fun q => q.id == inviterId) = some p →
      inviteeIds.length ≤ 2 →
      ∃ newMembers : List Member,
        (createSection r inviterId inviteeIds sid).1.sections =
          r.sections ++ [{ id := sid, members := newMembers, locked := false }]
        ∧ newMembers.head? = some { id := inviterId, number := p.number, accepted := false }
        ∧ (∀ m ∈ newMembers, m.accepted = false)
        ∧ newMembers.length ≤ 3)
    ∧ (∀ (r : Room) (pid : PId) (sectionId : Nat) (s : Section) (m : Member),
      r.sections.find? (fun t => t.id == sectionId) = some s →
      s.members.find? (fun x => x.id == pid) = some m →
      m.accepted = false →
      ∃ s' : Section,
        (acceptSectionInvitation r pid sectionId).1.sections =
          updateFirstSection r.sections sectionId s'
        ∧ s'.members.length = s.members.length
        ∧ (s.locked = false →
            (s'.locked = true ↔ s'.members.all (fun x => x.accepted) = true)))
    ∧ (∀ (r : Room) (pid : PId),
      (∀ s ∈ r.sections, s.members.length ≤ 3) →
      ∀ s ∈ (removeParticipant r pid).1.sections, s.members.length ≤ 3)
    ∧ (∀ (r : Room) (pid : PId),
      (∀ s ∈ r.sections, s.members.length ≤ 3) →
      ∀ s ∈ (handleClose r pid).1.sections, s.members.length ≤ 3) := by
  have hstrip : ∀ (sections : List Section) (pid : PId),
      (∀ s ∈ sections, s.members.length ≤ 3) →
      ∀ s ∈ stripFromSections sections pid, s.members.length ≤ 3 := by
    intro sections pid hcap s hs
    unfold stripFromSections at hs
    have hs' := List.mem_of_mem_filter hs
    obtain ⟨s₀, hs₀, rfl⟩ := List.mem_map.mp hs'
    calc (s₀.members.filter _).length ≤ s₀.members.length := List.length_filter_le _ _
      _ ≤ 3 := hcap s₀ hs₀
  refine ⟨?_, ?_, ?_, ?_, ?_, ?_⟩
  · intro r inviterId inviteeIds sid hcap s hs
    unfold createSection at hs
    split at hs
    · exact hcap s hs
    · rename_i inviter hfind
      split at hs
      · exact hcap s hs
      · rename_i hlen
        rcases List.mem_append.mp hs with hs | hs
        · exact hcap s hs
        · simp only [List.mem_singleton] at hs
          subst hs
          simp only [List.length_cons]
          have h1 : (inviteeIds.filterMap (resolveInvitee r)).length ≤ inviteeIds.length :=
            List.length_filterMap_le _ _
          omega
  · intro r inviterId inviteeIds sid p hfind hlen
    unfold createSection
    split
    · rename_i hnone
      rw [hfind] at hnone
      exact Option.noConfusion hnone
    · rename_i inviter hsome
      rw [if_pos (by omega)]
  · intro r inviterId inviteeIds sid p hfind hlen
    unfold createSection
    split
    · rename_i hnone
      rw [hfind] at hnone
      exact Option.noConfusion hnone
    · rename_i inviter hsome
      have hip : p = inviter := Option.some_inj.mp (hfind.symm.trans hsome)
      subst hip
      rw [if_neg (by omega)]
      refine ⟨_, rfl, rfl, ?_, ?_⟩
      · intro m hm
        rcases hm with _ | hm
        · rfl
        · rename_i hm
          obtain ⟨i, _, hi⟩ := List.mem_filterMap.mp hm
          obtain ⟨q, _, hq⟩ := Option.bind_eq_some.mp hi
          split at hq
          · simp only [Option.some_inj] at hq
            subst hq
            rfl
          · simp at hq
      · simp only [List.length_cons]
        have h1 : (inviteeIds.filterMap (resolveInvitee r)).length ≤ inviteeIds.length :=
          List.length_filterMap_le _ _
        omega
  · intro r pid sectionId s m hfs hfm hacc
    unfold acceptSectionInvitation
    split
    · rename_i hnone
      rw [hfs] at hnone
      exact Option.noConfusion hnone
    · rename_i s₁ hsome
      have hs₁ : s = s₁ := Option.some_inj.mp (hfs.symm.trans hsome)
      subst hs₁
      split
      · rename_i hnone
        rw [hfm] at hnone
        exact Option.noConfusion hnone
      · rename_i member hsomem
        have hm₁ : m = member := Option.some_inj.mp (hfm.symm.trans hsomem)
        subst hm₁
        rw [if_neg (by simp [hacc])]
        refine ⟨_, rfl, acceptFirst_length _ _, ?_⟩
        intro hunlocked
        by_cases hall : (acceptFirst s.members pid).all (fun x => x.accepted) = true
        · simp [hall]
        · simp [hall, hunlocked]
  · intro r pid hcap s hs
    unfold removeParticipant at hs
    split at hs
    · exact hcap s hs
    · exact hstrip r.sections pid hcap s hs
  · intro r pid hcap s hs
    unfold handleClose at hs
    split at hs
    · exact hcap s hs
    · exact hstrip r.sections pid hcap s hs

/- A room with participants 1 and 2 and a pending two-member section in which
   2 has accepted and 1 has not. -/
def pendingSectionRoom : Room :=
  { participants := [⟨1, 1, true⟩, ⟨2, 2, true⟩]
  , drawings := [], texts := [], votes := []
  , sections := [{ id := 100, members := [⟨1, 1, false⟩, ⟨2, 2, true⟩], locked := false }]
  , startTime := 0, votingRound := 0, sessionPhase := "open" }

/-- Witness for the amended C5: creating a section with 3 invitees is rejected
with the explicit error and no state change; creating one with a single
invitee yields an unlocked section of not-yet-accepted members within the
cap; and the final pending acceptance locks the section since it leaves every
member accepted. -/
theorem section_rules_witness :
    (createSection pendingSectionRoom 1 [2, 3, 4] 101 =
      (pendingSectionRoom, [Event.errorMsg "Section cannot exceed 3 participants"]))
    ∧ (∃ newMembers : List Member,
        (createSection pendingSectionRoom 1 [2] 101).1.sections =
          pendingSectionRoom.sections ++ [{ id := 101, members := newMembers, locked := false }]
        ∧ newMembers.head? = some { id := 1, number := 1, accepted := false }
        ∧ (∀ m ∈ newMembers, m.accepted = false)
        ∧ newMembers.length ≤ 3)
    ∧ (∃ s' : Section,
        (acceptSectionInvitation pendingSectionRoom 1 100).1.sections =
          updateFirstSection pendingSectionRoom.sections 100 s'
        ∧ s'.members.length = 2
        ∧ (s'.locked = true ↔ s'.members.all (fun x => x.accepted) = true)) := by
  refine ⟨?_, ?_, ?_⟩
  · exact section_rules.2.1 pendingSectionRoom 1 [2, 3, 4] 101 ⟨1, 1, true⟩
      (by decide) (by decide)
  · exact section_rules.2.2.1 pendingSectionRoom 1 [2] 101 ⟨1, 1, true⟩
      (by decide) (by decide)
  · obtain ⟨s', h1, h2, h3⟩ := section_rules.2.2.2.1 pendingSectionRoom 1 100
      ⟨100, [⟨1, 1, false⟩, ⟨2, 2, true⟩], false⟩ ⟨1, 1, false⟩
      (by decide) (by decide) (by decide)
    exact ⟨s', h1, h2, h3 rfl⟩

/- draw handler, start of a stroke (part_002 lines 398-406). -/
def handleDraw (r : Room) (senderId : PId) (senderNumber : Nat) (newId : Nat)
    (color : String) (width : Nat) (pts : List Point) : Room × List Event :=
  if canInteract r senderId then
    let d : Drawing :=
      { id := newId, number := senderNumber, color := color, width := width
      , paths := pts, sectionId := getParticipantSection r senderId }
    ({ r with drawings := r.drawings ++ [d] },
     [Event.drawingEvt (r.drawings ++ [d]).getLast?])
  else (r, [])

/- draw_update handler, continuation of a stroke (part_002 lines 407-417):
   the handler takes room.drawings[room.drawings.length - 1] — the room's last
   stroke by anyone — and appends to it only when its number matches the
   sender; it then broadcasts whatever stroke is last. -/
def drawUpdate (r : Room) (senderId : PId) (senderNumber : Nat)
    (pts : List Point) : Room × List Event :=
  if canInteract r senderId then
    let drawings' :=
      match r.drawings.getLast? with
      | some d =>
        if d.number = senderNumber then
          r.drawings.dropLast ++ [{ d with paths := d.paths ++ pts }]
        else r.drawings
      | none => r.drawings
    ({ r with drawings := drawings' }, [Event.drawingEvt drawings'.getLast?])
  else (r, [])

/- Open-phase room where participant 1 drew stroke 70 and then participant 2
   drew stroke 71, so the room's last stroke is not 1's. -/
def twoStrokeRoom : Room :=
  { participants := [⟨1, 1, true⟩, ⟨2, 2, true⟩]
  , drawings :=
      [ { id := 70, number := 1, color := "#4a9eff", width := 3
        , paths := [⟨0, 0⟩], sectionId := none }
      , { id := 71, number := 2, color := "#4a9eff", width := 3
        , paths := [⟨50, 50⟩], sectionId := none } ]
  , texts := [], votes := [], sections := []
  , startTime := 0, votingRound := 0, sessionPhase := "open" }

/-- Counterexample for C8: participant 1's most recently created stroke (id
70) still exists and still belongs to participant 1, yet 1's continuation
appends nothing, because the handler keys on the room's last stroke (id 71,
owned by participant 2) instead of the owner's most recent stroke. -/
theorem draw_update_stale_counterexample :
    ({ id := 70, number := 1, color := "#4a9eff", width := 3
     , paths := [⟨0, 0⟩], sectionId := none } : Drawing) ∈ twoStrokeRoom.drawings
    ∧ canInteract twoStrokeRoom 1 = true
    ∧ (drawUpdate twoStrokeRoom 1 1 [⟨1, 1⟩]).1.drawings = twoStrokeRoom.drawings := by
  refine ⟨by decide, by decide, by decide⟩

/-- C8 amended: a stroke continuation appends its points to the room's most
recently created stroke if and only if that last stroke belongs to the
sender; in every other case — the last stroke belongs to someone else (even
though an older stroke of the sender may still exist), or no stroke exists,
e.g. after erasure — the canvas state is left unchanged. -/
theorem draw_update_characterization :
    ∀ (r : Room) (senderId : PId) (senderNumber : Nat) (pts : List Point),
    canInteract r senderId = true →
    (∀ d, r.drawings.getLast? = some d → d.number = senderNumber →
      (drawUpdate r senderId senderNumber pts).1.drawings
        = r.drawings.dropLast ++ [{ d with paths := d.paths ++ pts }])
    ∧ (∀ d, r.drawings.getLast? = some d → d.number ≠ senderNumber →
      (drawUpdate r senderId senderNumber pts).1 = r)
    ∧ (r.drawings.getLast? = none →
      (drawUpdate r senderId senderNumber pts).1 = r) := by
  intro r senderId senderNumber pts hcan
  unfold drawUpdate
  rw [if_pos hcan]
  refine ⟨?_, ?_, ?_⟩
  · intro d hlast hnum
    simp [hlast, hnum]
  · intro d hlast hnum
    simp only [hlast, if_neg hnum]
  · intro hlast
    simp only [hlast]

/-- Witness for the amended C8: participant 2, owner of the room's last
stroke, extends it; participant 1, whose stroke is older, changes nothing. -/
theorem draw_update_characterization_witness :
    canInteract twoStrokeRoom 2 = true
    ∧ (drawUpdate twoStrokeRoom 2 2 [⟨51, 51⟩]).1.drawings
        = twoStrokeRoom.drawings.dropLast ++
          [{ id := 71, number := 2, color := "#4a9eff", width := 3
           , paths := [⟨50, 50⟩, ⟨51, 51⟩], sectionId := none }]
    ∧ (drawUpdate twoStrokeRoom 1 1 [⟨1, 1⟩]).1 = twoStrokeRoom :=
  ⟨by decide,
   (draw_update_characterization twoStrokeRoom 2 2 [⟨51, 51⟩] (by decide)).1
     { id := 71, number := 2, color := "#4a9eff", width := 3
     , paths := [⟨50, 50⟩], sectionId := none } (by decide) (by decide),
   (draw_update_characterization twoStrokeRoom 1 1 [⟨1, 1⟩] (by decide)).2.1
     { id := 71, number := 2, color := "#4a9eff", width := 3
     , paths := [⟨50, 50⟩], sectionId := none } (by decide) (by decide)⟩

/- request_voting handler (part_002 lines 515-534): any joined sender.  The
   handler also schedules a 60 s end-of-round timer, which no claim depends
   on, so it is not part of the returned value. -/
def requestVoting (r : Room) (senderId : PId) (round : Nat) : Room × List Event :=
  let rd := if round = 0 then 1 else round
  ({ r with votingRound := rd, votes := [] }, [Event.votingStarted rd])

/- request_sections_phase handler (part_002 lines 536-550). -/
def requestSectionsPhase (r : Room) (senderId : PId) : Room × List Event :=
  let remainingNumbers := r.activeNumbers.insertionSort (· ≤ ·)
  ({ r with sessionPhase := "sections" }, [Event.sectionsPhaseEvt remainingNumbers])

/-- C10: for any room state whatsoever — any phase, any voting round, any
elapsed session time — a request_voting command from a joined sender sets the
voting round to the requested value (defaulting to 1 when the field is absent
or 0, both falsy in JS), clears the whole vote tally and broadcasts a round
start, leaving the session phase untouched; and a request_sections_phase
command unconditionally sets the session phase to sections and broadcasts
exactly the active participants' numbers sorted ascending.  Phase changes are
thus reachable through client commands outside the timed schedule. -/
theorem request_phase_commands :
    ∀ (r : Room) (senderId : PId) (round : Nat),
    ((requestVoting r senderId round).1.votingRound = (if round = 0 then 1 else round)
     ∧ (∀ t, votesLookup (requestVoting r senderId round).1.votes t = 0)
     ∧ (requestVoting r senderId round).2
         = [Event.votingStarted (if round = 0 then 1 else round)]
     ∧ (requestVoting r senderId round).1.sessionPhase = r.sessionPhase
     ∧ (requestVoting r senderId round).1.participants = r.participants)
    ∧ ((requestSectionsPhase r senderId).1.sessionPhase = "sections"
     ∧ ∃ ns : List Nat,
         (requestSectionsPhase r senderId).2 = [Event.sectionsPhaseEvt ns]
         ∧ ns.Sorted (· ≤ ·)
         ∧ ns.Perm r.activeNumbers) := by
  intro r senderId round
  refine ⟨⟨rfl, fun t => rfl, rfl, rfl, rfl⟩, rfl, ?_⟩
  exact ⟨r.activeNumbers.insertionSort (· ≤ ·), rfl,
    List.sorted_insertionSort _ _, List.perm_insertionSort _ _⟩

/- Timer machinery of startVotingPhases (part_002 lines 318-365).  Each
   setTimeout is armed at session time elapsed with delay
   round*20*60000 - elapsed, so a round with positive delay fires at the
   absolute session time round*20*60000; the nested timeout ends the round
   60000 ms later, and round 3's end schedules the sections transition a
   further 1000 ms later.  Every callback first re-checks that the room still
   exists; the timeline below models a surviving room. -/
inductive TimerEv where
  | startRound (round : Nat)
  | endRound (round : Nat)
  | sectionsTransition
  deriving DecidableEq, Repr

/- scheduleVoting(round, round * 20 * 60000 - elapsed): the guard delay > 0
   becomes elapsed < round * 20 * 60000 over Nat. -/
def scheduleRound (elapsed : Nat) (round : Nat) : List (Nat × TimerEv) :=
  if elapsed < round * 20 * 60000 then
    (round * 20 * 60000, TimerEv.startRound round) ::
    (round * 20 * 60000 + 60000, TimerEv.endRound round) ::
    (if round = 3 then
      [(round * 20 * 60000 + 60000 + 1000, TimerEv.sectionsTransition)]
     else [])
  else []

/- the three scheduleVoting calls (part_002 lines 362-364), in order. -/
def scheduleTimers (elapsed : Nat) : List (Nat × TimerEv) :=
  scheduleRound elapsed 1 ++ scheduleRound elapsed 2 ++ scheduleRound elapsed 3

/- startVotingPhases (part_002 lines 318-324): the arming guard is
   room.votingRound > 0; when it passes, the timers are created.  none means
   arming was suppressed. -/
def startVotingPhases (r : Room) (elapsed : Nat) : Option (List (Nat × TimerEv)) :=
  if 0 < r.votingRound then none
  else some (scheduleTimers elapsed)

/- Effect of one fired timer on (votingRound, sessionPhase): round start sets
   votingRound := round (and resets votes, irrelevant to the phase), round end
   sets votingRound := 0, the settle callback sets sessionPhase := sections. -/
def applyTimerEv (st : Nat × String) : TimerEv → Nat × String
  | TimerEv.startRound round => (round, st.2)
  | TimerEv.endRound _ => (0, st.2)
  | TimerEv.sectionsTransition => (st.1, "sections")

/- (votingRound, sessionPhase) at session time t, obtained by firing, in
   chronological order, every scheduled timer whose fire time has passed,
   starting from the initial state (0, open). -/
def phaseStateAt (elapsed t : Nat) : Nat × String :=
  ((scheduleTimers elapsed).filter (fun ev => decide (ev.1 ≤ t))).foldl
    (fun st ev => applyTimerEv st ev.2) (0, "open")

/- How many scheduled timers have fired by time t. -/
def stage (elapsed t : Nat) : Nat :=
  (scheduleTimers elapsed).countP (fun ev => decide (ev.1 ≤ t))

/- The phase abstraction of the claim: Sections once sessionPhase is
   "sections", else Voting(round) while a round is active, else Open. -/
inductive PhaseView where
  | openPhase
  | votingPhase (round : Nat)
  | sectionsPhase
  deriving DecidableEq, Repr

def phaseView (st : Nat × String) : PhaseView :=
  if st.2 = "sections" then PhaseView.sectionsPhase
  else if 0 < st.1 then PhaseView.votingPhase st.1
  else PhaseView.openPhase

/- The claimed fixed trajectory, indexed by how many timers have fired. -/
def trajPhase : Nat → PhaseView
  | 0 => PhaseView.openPhase
  | 1 => PhaseView.votingPhase 1
  | 2 => PhaseView.openPhase
  | 3 => PhaseView.votingPhase 2
  | 4 => PhaseView.openPhase
  | 5 => PhaseView.votingPhase 3
  | 6 => PhaseView.openPhase
  | _ => PhaseView.sectionsPhase

/- The round-3 end chain, 1000 ms later (part_002 lines 341-353): enter the
   sections phase and broadcast the remaining active numbers sorted
   ascending. -/
def sectionsTransitionAction (r : Room) : Room × List Event :=
  ({ r with sessionPhase := "sections" },
   [Event.sectionsPhaseEvt (r.activeNumbers.insertionSort (· ≤ ·))])

theorem scheduleTimers_eq (elapsed : Nat) (he : elapsed < 20 * 60000) :
    scheduleTimers elapsed =
      [(1200000, TimerEv.startRound 1), (1260000, TimerEv.endRound 1),
       (2400000, TimerEv.startRound 2), (2460000, TimerEv.endRound 2),
       (3600000, TimerEv.startRound 3), (3660000, TimerEv.endRound 3),
       (3661000, TimerEv.sectionsTransition)] := by
  have h1 : elapsed < 1 * 20 * 60000 := by omega
  have h2 : elapsed < 2 * 20 * 60000 := by omega
  have h3 : elapsed < 3 * 20 * 60000 := by omega
  simp [scheduleTimers, scheduleRound, h1, h2, h3]

theorem phaseStateAt_char (elapsed t : Nat) (he : elapsed < 20 * 60000) :
    phaseStateAt elapsed t =
      (if t < 1200000 then ((0 : Nat), "open")
       else if t < 1260000 then (1, "open")
       else if t < 2400000 then (0, "open")
       else if t < 2460000 then (2, "open")
       else if t < 3600000 then (0, "open")
       else if t < 3660000 then (3, "open")
       else if t < 3661000 then (0, "open")
       else (0, "sections"))
    ∧ stage elapsed t =
      (if t < 1200000 then 0
       else if t < 1260000 then 1
       else if t < 2400000 then 2
       else if t < 2460000 then 3
       else if t < 3600000 then 4
       else if t < 3660000 then 5
       else if t < 3661000 then 6
       else 7) := by
  unfold phaseStateAt stage
  rw [scheduleTimers_eq elapsed he]
  rcases Nat.lt_or_ge t 1200000 with ht | ht1
  · have c1 : ¬(1200000 ≤ t) := by omega
    have c2 : ¬(1260000 ≤ t) := by omega
    have c3 : ¬(2400000 ≤ t) := by omega
    have c4 : ¬(2460000 ≤ t) := by omega
    have c5 : ¬(3600000 ≤ t) := by omega
    have c6 : ¬(3660000 ≤ t) := by omega
    have c7 : ¬(3661000 ≤ t) := by omega
    simp [applyTimerEv, c1, c2, c3, c4, c5, c6, c7, ht]
  · rcases Nat.lt_or_ge t 1260000 with ht | ht2
    · have c2 : ¬(1260000 ≤ t) := by omega
      have c3 : ¬(2400000 ≤ t) := by omega
      have c4 : ¬(2460000 ≤ t) := by omega
      have c5 : ¬(3600000 ≤ t) := by omega
      have c6 : ¬(3660000 ≤ t) := by omega
      have c7 : ¬(3661000 ≤ t) := by omega
      have d1 : ¬(t < 1200000) := by omega
      simp [applyTimerEv, ht1, c2, c3, c4, c5, c6, c7, d1, ht]
    · rcases Nat.lt_or_ge t 2400000 with ht | ht3
      · have c3 : ¬(2400000 ≤ t) := by omega
        have c4 : ¬(2460000 ≤ t) := by omega
        have c5 : ¬(3600000 ≤ t) := by omega
        have c6 : ¬(3660000 ≤ t) := by omega
        have c7 : ¬(3661000 ≤ t) := by omega
        have d1 : ¬(t < 1200000) := by omega
        have d2 : ¬(t < 1260000) := by omega
        simp [applyTimerEv, ht1, ht2, c3, c4, c5, c6, c7, d1, d2, ht]
      · rcases Nat.lt_or_ge t 2460000 with ht | ht4
        · have c4 : ¬(2460000 ≤ t) := by omega
          have c5 : ¬(3600000 ≤ t) := by omega
          have c6 : ¬(3660000 ≤ t) := by omega
          have c7 : ¬(3661000 ≤ t) := by omega
          have d1 : ¬(t < 1200000) := by omega
          have d2 : ¬(t < 1260000) := by omega
          have d3 : ¬(t < 2400000) := by omega
          simp [applyTimerEv, ht1, ht2, ht3, c4, c5, c6, c7, d1, d2, d3, ht]
        · rcases Nat.lt_or_ge t 3600000 with ht | ht5
          · have c5 : ¬(3600000 ≤ t) := by omega
            have c6 : ¬(3660000 ≤ t) := by omega
            have c7 : ¬(3661000 ≤ t) := by omega
            have d1 : ¬(t < 1200000) := by omega
            have d2 : ¬(t < 1260000) := by omega
            have d3 : ¬(t < 2400000) := by omega
            have d4 : ¬(t < 2460000) := by omega
            simp [applyTimerEv, ht1, ht2, ht3, ht4, c5, c6, c7, d1, d2, d3, d4, ht]
          · rcases Nat.lt_or_ge t 3660000 with ht | ht6
            · have c6 : ¬(3660000 ≤ t) := by omega
              have c7 : ¬(3661000 ≤ t) := by omega
              have d1 : ¬(t < 1200000) := by omega
              have d2 : ¬(t < 1260000) := by omega
              have d3 : ¬(t < 2400000) := by omega
              have d4 : ¬(t < 2460000) := by omega
              have d5 : ¬(t < 3600000) := by omega
              simp [applyTimerEv, ht1, ht2, ht3, ht4, ht5, c6, c7, d1, d2, d3, d4, d5, ht]
            · rcases Nat.lt_or_ge t 3661000 with ht | ht7
              · have c7 : ¬(3661000 ≤ t) := by omega
                have d1 : ¬(t < 1200000) := by omega
                have d2 : ¬(t < 1260000) := by omega
                have d3 : ¬(t < 2400000) := by omega
                have d4 : ¬(t < 2460000) := by omega
                have d5 : ¬(t < 3600000) := by omega
                have d6 : ¬(t < 3660000) := by omega
                simp [applyTimerEv, ht1, ht2, ht3, ht4, ht5, ht6, c7, d1, d2, d3, d4, d5, d6, ht]
              · have d1 : ¬(t < 1200000) := by omega
                have d2 : ¬(t < 1260000) := by omega
                have d3 : ¬(t < 2400000) := by omega
                have d4 : ¬(t < 2460000) := by omega
                have d5 : ¬(t < 3600000) := by omega
                have d6 : ¬(t < 3660000) := by omega
                have d7 : ¬(t < 3661000) := by omega
                simp [applyTimerEv, ht1, ht2, ht3, ht4, ht5, ht6, ht7, d1, d2, d3, d4, d5, d6, d7]

theorem phaseView_char (elapsed t : Nat) (he : elapsed < 20 * 60000) :
    phaseView (phaseStateAt elapsed t) =
      (if t < 1200000 then PhaseView.openPhase
       else if t < 1260000 then PhaseView.votingPhase 1
       else if t < 2400000 then PhaseView.openPhase
       else if t < 2460000 then PhaseView.votingPhase 2
       else if t < 3600000 then PhaseView.openPhase
       else if t < 3660000 then PhaseView.votingPhase 3
       else if t < 3661000 then PhaseView.openPhase
       else PhaseView.sectionsPhase) := by
  rw [(phaseStateAt_char elapsed t he).1]
  split_ifs <;> decide

theorem trajPhase_stage_char (elapsed t : Nat) (he : elapsed < 20 * 60000) :
    trajPhase (stage elapsed t) =
      (if t < 1200000 then PhaseView.openPhase
       else if t < 1260000 then PhaseView.votingPhase 1
       else if t < 2400000 then PhaseView.openPhase
       else if t < 2460000 then PhaseView.votingPhase 2
       else if t < 3600000 then PhaseView.openPhase
       else if t < 3660000 then PhaseView.votingPhase 3
       else if t < 3661000 then PhaseView.openPhase
       else PhaseView.sectionsPhase) := by
  rw [(phaseStateAt_char elapsed t he).2]
  split_ifs <;> decide

/-- C6: once the schedule is armed before minute 20 (the code arms it on the
session's first join, when elapsed is 0), the scheduled transitions follow
the fixed trajectory Open, Voting(1), Open, Voting(2), Open, Voting(3), Open
for the 1-second settle window, then the terminal Sections phase — and never
regress: the number of fired timers is monotone in time and the realized
phase is a fixed function of it; Voting(round) holds exactly on
[round*20min, round*20min + 60s) for rounds 1..3, the Sections phase holds
exactly from 61min + 1s on (1 second after round 3 ends) and is terminal,
and the sections transition broadcasts the remaining active numbers sorted
ascending. -/
theorem phase_schedule_trajectory :
    ∀ elapsed : Nat, elapsed < 20 * 60000 →
    (∀ t u : Nat, t ≤ u → stage elapsed t ≤ stage elapsed u)
    ∧ (∀ t : Nat, phaseView (phaseStateAt elapsed t) = trajPhase (stage elapsed t))
    ∧ (∀ t round : Nat, 0 < round →
        (phaseView (phaseStateAt elapsed t) = PhaseView.votingPhase round ↔
          round ≤ 3 ∧ round * 20 * 60000 ≤ t ∧ t < round * 20 * 60000 + 60000))
    ∧ (∀ t : Nat, phaseView (phaseStateAt elapsed t) = PhaseView.sectionsPhase ↔
        61 * 60000 + 1000 ≤ t)
    ∧ (∀ r : Room,
        (sectionsTransitionAction r).1.sessionPhase = "sections"
        ∧ ∃ ns : List Nat, (sectionsTransitionAction r).2 = [Event.sectionsPhaseEvt ns]
            ∧ ns.Sorted (· ≤ ·) ∧ ns.Perm r.activeNumbers) := by
  intro elapsed he
  refine ⟨?_, ?_, ?_, ?_, ?_⟩
  · intro t u htu
    unfold stage
    apply List.countP_mono_left
    intro ev _ hev
    simp only [decide_eq_true_eq] at hev ⊢
    omega
  · intro t
    rw [phaseView_char elapsed t he, trajPhase_stage_char elapsed t he]
  · intro t round hround
    rw [phaseView_char elapsed t he]
    split_ifs with h1 h2 h3 h4 h5 h6 h7
    · exact ⟨fun h => by simp at h, fun h => by exfalso; omega⟩
    · constructor
      · intro h
        simp only [PhaseView.votingPhase.injEq] at h
        omega
      · intro h
        have hr : round = 1 := by omega
        rw [hr]
    · exact ⟨fun h => by simp at h, fun h => by exfalso; omega⟩
    · constructor
      · intro h
        simp only [PhaseView.votingPhase.injEq] at h
        omega
      · intro h
        have hr : round = 2 := by omega
        rw [hr]
    · exact ⟨fun h => by simp at h, fun h => by exfalso; omega⟩
    · constructor
      · intro h
        simp only [PhaseView.votingPhase.injEq] at h
        omega
      · intro h
        have hr : round = 3 := by omega
        rw [hr]
    · exact ⟨fun h => by simp at h, fun h => by exfalso; omega⟩
    · exact ⟨fun h => by simp at h, fun h => by exfalso; omega⟩
  · intro t
    rw [phaseView_char elapsed t he]
    split_ifs with h1 h2 h3 h4 h5 h6 h7
    · exact ⟨fun h => by simp at h, fun h => by exfalso; omega⟩
    · exact ⟨fun h => by simp at h, fun h => by exfalso; omega⟩
    · exact ⟨fun h => by simp at h, fun h => by exfalso; omega⟩
    · exact ⟨fun h => by simp at h, fun h => by exfalso; omega⟩
    · exact ⟨fun h => by simp at h, fun h => by exfalso; omega⟩
    · exact ⟨fun h => by simp at h, fun h => by exfalso; omega⟩
    · exact ⟨fun h => by simp at h, fun h => by exfalso; omega⟩
    · exact ⟨fun _ => by omega, fun _ => rfl⟩
  · intro r
    exact ⟨rfl, r.activeNumbers.insertionSort (· ≤ ·), rfl,
      List.sorted_insertionSort _ _, List.perm_insertionSort _ _⟩

/-- Witness for C6: at arming time 0, the phase is Open at minute 10,
Voting(2) at minute 40, Open in the settle second after round 3, and
Sections at minute 61 plus 1 second. -/
theorem phase_schedule_trajectory_witness :
    (0 : Nat) < 20 * 60000
    ∧ stage 0 600000 ≤ stage 0 2400000
    ∧ (phaseView (phaseStateAt 0 2400000) = PhaseView.votingPhase 2 ↔
        2 ≤ 3 ∧ 2 * 20 * 60000 ≤ 2400000 ∧ 2400000 < 2 * 20 * 60000 + 60000)
    ∧ (phaseView (phaseStateAt 0 3661000) = PhaseView.sectionsPhase ↔
        61 * 60000 + 1000 ≤ 3661000) :=
  ⟨by decide,
   (phase_schedule_trajectory 0 (by decide)).1 600000 2400000 (by decide),
   (phase_schedule_trajectory 0 (by decide)).2.2.1 2400000 2 (by decide),
   (phase_schedule_trajectory 0 (by decide)).2.2.2.1 3661000⟩

/- A room at session minute 25: round 1 has come and gone, so votingRound is
   back to 0 and the phase is open; one participant is present and another
   join is about to be processed. -/
def midSessionRoom : Room :=
  { participants := [⟨1, 1, true⟩]
  , drawings := [], texts := [], votes := [], sections := []
  , startTime := 0, votingRound := 0, sessionPhase := "open" }

/-- C9 fails on the code (code), shown at a concrete input: the arming guard
is room.votingRound > 0, which holds only while a round is actively running
(votingRound is reset to 0 at each round's end).  The first join arms the
full schedule, but a later join at minute 25 — after round 1 ended, with
votingRound back to 0 — passes the guard and re-arms, creating duplicate
timers for rounds 2 and 3; the guard suppresses re-arming only during a
round (last conjunct).  This contradicts armed exactly once per session,
never re-armed by later joins. -/
theorem voting_schedule_rearmed_bug :
    startVotingPhases (initRoom 0) 0 = some (scheduleTimers 0)
    ∧ scheduleTimers 0 =
        [(1200000, TimerEv.startRound 1), (1260000, TimerEv.endRound 1),
         (2400000, TimerEv.startRound 2), (2460000, TimerEv.endRound 2),
         (3600000, TimerEv.startRound 3), (3660000, TimerEv.endRound 3),
         (3661000, TimerEv.sectionsTransition)]
    ∧ startVotingPhases midSessionRoom 1500000 =
        some [(2400000, TimerEv.startRound 2), (2460000, TimerEv.endRound 2),
              (3600000, TimerEv.startRound 3), (3660000, TimerEv.endRound 3),
              (3661000, TimerEv.sectionsTransition)]
    ∧ startVotingPhases { midSessionRoom with votingRound := 2 } 2410000 = none := by
  refine ⟨by decide, by decide, by decide, by decide⟩

end Atlas

/- Embedding of the set-semantics voting variant found in src/server.js
   (lines 455-962): room.votes is a Map from targetId to the Set of voterIds,
   handleVote adds the voter to the target's set, and startVotingRound clears
   the tally.  Only the fields this variant's voting subsystem reads or writes
   are modeled (participants, votes, sessionPhase, votingRound,
   availableNumbers); the content store and waiting queue of that variant are
   untouched by these functions. -/
namespace ServerJs

abbrev PId := Atlas.PId

structure SParticipant where
  id : PId
  number : Nat
  wsOpen : Bool
  deriving DecidableEq, Repr

structure SRoom where
  participants : List SParticipant
  votes : List (PId × List PId)
  sessionPhase : String
  votingRound : Nat
  availableNumbers : List Nat
  deriving DecidableEq, Repr

inductive SEvent where
  | voteUpdate (targetId : PId) (votes : Nat)
  | participantRemoved (targetId : PId) (number : Nat)
  | votingStarted (round : Nat)
  deriving DecidableEq, Repr

/- Set.add: a JS Set ignores an element it already holds. -/
def setAdd (s : List PId) (v : PId) : List PId :=
  if s.contains v then s else s ++ [v]

/- if (!room.votes.has(t)) room.votes.set(t, new Set());
   room.votes.get(t).add(v)  (server.js lines 763-769). -/
def votesAdd : List (PId × List PId) → PId → PId → List (PId × List PId)
  | [], t, v => [(t, [v])]
  | e :: rest, t, v =>
    if e.1 = t then (e.1, setAdd e.2 v) :: rest else e :: votesAdd rest t v

/- room.votes.get(t), with a missing key reading as the empty set. -/
def votesGet : List (PId × List PId) → PId → List PId
  | [], _ => []
  | e :: rest, t => if e.1 = t then e.2 else votesGet rest t

/- removeParticipant of this variant (server.js lines 785-805): close the
   connection, return the number to the pool, delete the record, broadcast. -/
def removeParticipant (room : SRoom) (pid : PId) : SRoom × List SEvent :=
  match room.participants.find? (fun p => p.id == pid) with
  | none => (room, [])
  | some participant =>
    ({ room with
        participants := room.participants.filter (fun p => p.id != pid)
      , availableNumbers := room.availableNumbers ++ [participant.number] },
     [SEvent.participantRemoved pid participant.number])

/- handleVote (server.js lines 757-783). -/
def handleVote (room : SRoom) (participantId targetId : PId) : SRoom × List SEvent :=
  if room.sessionPhase ≠ "voting" then (room, [])
  else if !(room.participants.any (fun p => p.id == targetId)) then (room, [])
  else
    let votes' := votesAdd room.votes targetId participantId
    let voteCount := (votesGet votes' targetId).length
    if 4 ≤ voteCount then
      let res := removeParticipant { room with votes := votes' } targetId
      (res.1, SEvent.voteUpdate targetId voteCount :: res.2)
    else
      ({ room with votes := votes' }, [SEvent.voteUpdate targetId voteCount])

/- startVotingRound (server.js lines 901-921): enter the voting phase for the
   given round and clear the tally (the 60 s end-of-round timer is the part
   of the schedule, not of this state transition). -/
def startVotingRound (room : SRoom) (round : Nat) : SRoom × List SEvent :=
  ({ room with sessionPhase := "voting", votingRound := round, votes := [] },
   [SEvent.votingStarted round])

theorem setAdd_of_mem {s : List PId} {v : PId} (h : v ∈ s) : setAdd s v = s := by
  have hc : s.contains v = true := by simpa using h
  simp only [setAdd]
  rw [if_pos hc]

theorem setAdd_idem (s : List PId) (v : PId) : setAdd (setAdd s v) v = setAdd s v := by
  by_cases hc : s.contains v = true
  · have h1 : setAdd s v = s := by simp only [setAdd]; rw [if_pos hc]
    rw [h1]
    exact h1
  · have h1 : setAdd s v = s ++ [v] := by simp only [setAdd]; rw [if_neg hc]
    rw [h1]
    exact setAdd_of_mem (by simp)

theorem setAdd_nodup {s : List PId} (v : PId) (h : s.Nodup) : (setAdd s v).Nodup := by
  by_cases hc : s.contains v = true
  · rw [setAdd_of_mem (by simpa using hc)]
    exact h
  · have hnm : v ∉ s := by simpa using hc
    have h1 : setAdd s v = s ++ [v] := by simp only [setAdd]; rw [if_neg hc]
    rw [h1]
    simp [List.nodup_append, h, hnm]

theorem votesGet_add (V : List (PId × List PId)) (t v : PId) :
    votesGet (votesAdd V t v) t = setAdd (votesGet V t) v := by
  induction V with
  | nil => simp [votesAdd, votesGet, setAdd]
  | cons e rest ih =>
    by_cases h : e.1 = t
    · simp [votesAdd, votesGet, h]
    · simp [votesAdd, votesGet, h, ih]

theorem votesAdd_idem (V : List (PId × List PId)) (t v : PId) :
    votesAdd (votesAdd V t v) t v = votesAdd V t v := by
  induction V with
  | nil => simp [votesAdd, setAdd]
  | cons e rest ih =>
    by_cases h : e.1 = t
    · simp [votesAdd, h, setAdd_idem]
    · simp [votesAdd, h, ih]

theorem votesAdd_nodup (V : List (PId × List PId)) (t v : PId)
    (h : ∀ e ∈ V, e.2.Nodup) : ∀ e ∈ votesAdd V t v, e.2.Nodup := by
  induction V with
  | nil =>
    intro e he
    simp only [votesAdd, List.mem_singleton] at he
    subst he
    simp
  | cons hd rest ih =>
    intro e he
    by_cases hh : hd.1 = t
    · simp only [votesAdd, if_pos hh, List.mem_cons] at he
      rcases he with he | he
      · subst he
        exact setAdd_nodup v (h hd (by simp))
      · exact h e (by simp [he])
    · simp only [votesAdd, if_neg hh, List.mem_cons] at he
      rcases he with he | he
      · subst he
        exact h e (by simp)
      · exact ih (fun e' he' => h e' (by simp [he'])) e he

/-- C2: in the set-semantics voting subsystem of src/server.js (the variant
the spec adopts; part_002 instead keeps a raw counter), the tally maps each
target to the set of distinct voters: casting the same (voter, target) vote
twice leaves the post-vote room state exactly as after the first cast — so a
repeated vote never increases the target's count — a voter already in the
target's set leaves that set unchanged, the voter sets never hold duplicates,
the broadcast count is the size of the target's voter set with the voter
inserted once, and startVotingRound resets the tally to empty at the start of
each round. -/
theorem handleVote_idempotent_and_reset :
    (∀ (room : SRoom) (voterId targetId : PId),
      (handleVote (handleVote room voterId targetId).1 voterId targetId).1
        = (handleVote room voterId targetId).1)
    ∧ (∀ (V : List (PId × List PId)) (t v : PId),
        v ∈ votesGet V t → votesGet (votesAdd V t v) t = votesGet V t)
    ∧ (∀ (room : SRoom) (voterId targetId : PId),
        (∀ e ∈ room.votes, e.2.Nodup) →
        ∀ e ∈ (handleVote room voterId targetId).1.votes, e.2.Nodup)
    ∧ (∀ (room : SRoom) (voterId targetId : PId),
        room.sessionPhase = "voting" →
        room.participants.any (fun p => p.id == targetId) = true →
        (handleVote room voterId targetId).2.head? =
          some (SEvent.voteUpdate targetId
            (setAdd (votesGet room.votes targetId) voterId).length))
    ∧ (∀ (room : SRoom) (round : Nat),
        (startVotingRound room round).1.votes = []
        ∧ (startVotingRound room round).1.sessionPhase = "voting"
        ∧ (startVotingRound room round).1.votingRound = round) := by
  have filter_ne_any_eq_false : ∀ (l : List SParticipant) (t : PId),
      (l.filter (fun p => p.id != t)).any (fun p => p.id == t) = false := by
    intro l t
    rw [List.any_eq_false]
    intro p hp
    have h2 := (List.mem_filter.mp hp).2
    simp only [bne_iff_ne, ne_eq] at h2
    simpa using h2
  refine ⟨?_, ?_, ?_, ?_, ?_⟩
  · intro room v t
    by_cases hphase : room.sessionPhase = "voting"
    · by_cases htgt : room.participants.any (fun p => p.id == t) = true
      · by_cases hbig : 4 ≤ (votesGet (votesAdd room.votes t v) t).length
        · obtain ⟨p, hpfind⟩ : ∃ p, room.participants.find? (fun q => q.id == t) = some p := by
            cases hfd : room.participants.find? (fun q => q.id == t) with
            | some p => exact ⟨p, rfl⟩
            | none =>
              rw [List.find?_eq_none] at hfd
              rcases List.any_eq_true.mp htgt with ⟨q, hq, hqt⟩
              exact absurd hqt (by simpa using hfd q hq)
          have h1 : handleVote room v t =
              ({ room with
                  votes := votesAdd room.votes t v
                , participants := room.participants.filter (fun q => q.id != t)
                , availableNumbers := room.availableNumbers ++ [p.number] },
               [SEvent.voteUpdate t (votesGet (votesAdd room.votes t v) t).length,
                SEvent.participantRemoved t p.number]) := by
            simp only [handleVote]
            rw [if_neg (by simp [hphase]), if_neg (by simp [htgt]), if_pos hbig]
            simp only [removeParticipant, hpfind]
          rw [h1]
          simp only [handleVote]
          rw [if_neg (by simp [hphase]),
            if_pos (by simp [filter_ne_any_eq_false room.participants t])]
        · have h1 : handleVote room v t =
              ({ room with votes := votesAdd room.votes t v },
               [SEvent.voteUpdate t (votesGet (votesAdd room.votes t v) t).length]) := by
            simp only [handleVote]
            rw [if_neg (by simp [hphase]), if_neg (by simp [htgt]), if_neg hbig]
          rw [h1]
          have hVidem : votesAdd (votesAdd room.votes t v) t v = votesAdd room.votes t v :=
            votesAdd_idem room.votes t v
          simp only [handleVote]
          rw [if_neg (by simp [hphase]), if_neg (by simp [htgt])]
          rw [hVidem, if_neg hbig]
      · have h1 : handleVote room v t = (room, []) := by
          simp only [handleVote]
          rw [if_neg (by simp [hphase]), if_pos (by simp [htgt])]
        simp [h1]
    · have h1 : handleVote room v t = (room, []) := by
        simp only [handleVote]
        rw [if_pos hphase]
      simp [h1]
  · intro V t v hmem
    rw [votesGet_add, setAdd_of_mem hmem]
  · intro room v t h e he
    simp only [handleVote] at he
    split at he
    · exact h e he
    · split at he
      · exact h e he
      · split at he
        · simp only [removeParticipant] at he
          split at he
          · exact votesAdd_nodup room.votes t v h e he
          · exact votesAdd_nodup room.votes t v h e he
        · exact votesAdd_nodup room.votes t v h e he
  · intro room v t hphase htgt
    simp only [handleVote]
    rw [if_neg (by simp [hphase]), if_neg (by simp [htgt])]
    rw [votesGet_add]
    split
    · simp only [removeParticipant]
      split
      · simp
      · simp
    · simp
  · intro room round
    exact ⟨rfl, rfl, rfl⟩

/- A voting-phase room of this variant with participants 1 and 7 and an empty
   tally. -/
def votingSRoom : SRoom :=
  { participants := [⟨1, 1, true⟩, ⟨7, 7, true⟩]
  , votes := [], sessionPhase := "voting", votingRound := 1, availableNumbers := [] }

/-- Witness for C2: voter 1's second identical vote against 7 leaves the room
state exactly as after the first; the first broadcast carries count 1; a
voter already in the target's set leaves it unchanged; and starting round 2
resets the tally. -/
theorem handleVote_idempotent_and_reset_witness :
    (handleVote (handleVote votingSRoom 1 7).1 1 7).1 = (handleVote votingSRoom 1 7).1
    ∧ (handleVote votingSRoom 1 7).2.head? = some (SEvent.voteUpdate 7 1)
    ∧ votesGet (votesAdd [(7, [1])] 7 1) 7 = votesGet [(7, [1])] 7
    ∧ (startVotingRound votingSRoom 2).1.votes = [] :=
  ⟨handleVote_idempotent_and_reset.1 votingSRoom 1 7,
   by
    have h := handleVote_idempotent_and_reset.2.2.2.1 votingSRoom 1 7 rfl (by decide)
    simpa using h,
   handleVote_idempotent_and_reset.2.1 [(7, [1])] 7 1 (by decide),
   (handleVote_idempotent_and_reset.2.2.2.2 votingSRoom 2).1⟩

end ServerJs
